import Mathlib

/-! Verification of the Stromness Museum buoy monitoring dashboard.

Shallow embedding of the data-handling core of src/app.py (time-window
resolution, aggregation-bucket choice, liveness classification, caching,
summary statistics, sorting/truncation of loaded data, and CSV/JSON export).
Instants and durations are modelled as numbers of seconds: rationals where the
source works with float `total_seconds()`, integers where it works with whole
timestamps and hours. -/

namespace Stromness

/-! Resolution policy: `aggregate_data` and the hour computations of
`load_temperature_data` in src/app.py. -/

/-- Aggregation granularity used by `aggregate_data` (src/app.py lines 171-194):
a 15-minute resample, an hourly resample, or a daily resample. -/
inductive Bucket
  | fifteenMin
  | hourly
  | daily
deriving DecidableEq

/-- Branch structure of `aggregate_data(df, hours)` (src/app.py lines 175-192):
spans of at most 168 hours are resampled at 15 minutes, spans of at most 720
hours hourly, and longer spans daily. -/
def aggregate_bucket (hours : ℤ) : Bucket :=
  if hours ≤ 168 then Bucket.fifteenMin
  else if hours ≤ 720 then Bucket.hourly
  else Bucket.daily

/-- DATA_CUTOFF_DATE = datetime(2025, 6, 30) (src/app.py line 16), written as
Unix epoch seconds of 2025-06-30 00:00:00. -/
def DATA_CUTOFF : ℤ := 1751241600

/-- Hour count computed by `load_temperature_data` (src/app.py lines 200-206):
the unbounded "All Data" request (hours_back is None) becomes
int((now - DATA_CUTOFF_DATE).total_seconds() / 3600), where Python's int()
truncates toward zero (Int.tdiv); a bounded request of h hours stays h. -/
def actual_hours (hours_back : Option ℤ) (now : ℤ) : ℤ :=
  match hours_back with
  | none => Int.tdiv (now - DATA_CUTOFF) 3600
  | some h => h

/-- Query lower bound computed by `load_temperature_data` (src/app.py lines
200-205): the unbounded request starts at the cutoff, a bounded request of h
hours starts at max(now - h hours, DATA_CUTOFF_DATE). -/
def start_time (hours_back : Option ℤ) (now : ℤ) : ℤ :=
  match hours_back with
  | none => DATA_CUTOFF
  | some h => max (now - h * 3600) DATA_CUTOFF

/-! Readings and the two load paths of `load_temperature_data`. -/

/-- One row of the water_temperature table: timestamp in epoch seconds,
temperature in degrees Celsius, optional signal strength in dBm. -/
structure Reading where
  timestamp : ℤ
  temperature : ℚ
  rssi : Option ℚ
deriving DecidableEq

/-- Range filter of the fallback direct query (src/app.py lines 241-245):
.gte keeps the rows whose timestamp is at least the start bound, in the
source's own order. -/
def fetch_range (table : List Reading) (start : ℤ) : List Reading :=
  table.filter (fun r => start ≤ r.timestamp)

/-- Ascending-timestamp order on readings, the sort key of
df.sort_values(timestamp). -/
def tsLE (a b : Reading) : Prop := a.timestamp ≤ b.timestamp

instance : DecidableRel tsLE :=
  fun a b => inferInstanceAs (Decidable (a.timestamp ≤ b.timestamp))

instance : IsTotal Reading tsLE := ⟨fun a b => le_total a.timestamp b.timestamp⟩

instance : IsTrans Reading tsLE := ⟨fun _ _ _ hab hbc => le_trans hab hbc⟩

/-- Re-sort applied by both load paths (src/app.py lines 223 and 250):
df = df.sort_values(timestamp), ascending. -/
def sort_by_timestamp (rows : List Reading) : List Reading :=
  List.insertionSort tsLE rows

/-- RPC path of `load_temperature_data` (src/app.py lines 218-231): the rows
the RPC returned, re-sorted ascending by timestamp. -/
def rpc_result (rows : List Reading) : List Reading :=
  sort_by_timestamp rows

/-- Fallback path of `load_temperature_data` (src/app.py lines 247-255): the
rows of the direct query re-sorted ascending, paired with the truncation flag
len(df) == 1000 that raises the possibly-incomplete-data warning. -/
def fallback_result (rows : List Reading) : List Reading × Bool :=
  (sort_by_timestamp rows, rows.length == 1000)

/-! Liveness classification (src/app.py lines 284-318) and the status bar
check (src/app.py lines 643-646). -/

/-- Four states of the live temperature banner. -/
inductive LiveStatus
  | LIVE
  | RECENT
  | OFFLINE
  | NO_DATA
deriving DecidableEq

/-- Liveness banner of src/app.py lines 284-318: from the optional timestamp of
the latest reading and the current time (seconds), LIVE below 300 seconds of
age, RECENT below 1800, OFFLINE otherwise, NO DATA when no reading exists. -/
def classify (latest : Option ℚ) (now : ℚ) : LiveStatus :=
  match latest with
  | none => LiveStatus.NO_DATA
  | some ts =>
    if now - ts < 300 then LiveStatus.LIVE
    else if now - ts < 1800 then LiveStatus.RECENT
    else LiveStatus.OFFLINE

/-- Status bar check of src/app.py lines 643-646: Buoy Online exactly when a
latest reading exists and its timestamp is strictly greater than
now - timedelta(minutes=10). -/
def buoy_online (latest : Option ℚ) (now : ℚ) : Bool :=
  match latest with
  | none => false
  | some ts => decide (now - 600 < ts)

/-! Query cache. The memoization itself is performed by st.cache_data inside
the streamlit library, which is not part of this repository; only the ttl
arguments and the clear call are in src/app.py. -/

/-- Modelled from the spec: the st.cache_data entry store (the cache machinery
lives in the streamlit library, not under src/). An entry holds a value and
the instant it was fetched. -/
structure QueryCache (κ : Type) (α : Type) where
  entries : κ → Option (α × ℤ)

/-- Modelled from the spec: the cache before any call memoizes nothing. -/
def QueryCache.emptyCache {κ α : Type} : QueryCache κ α := ⟨fun _ => none⟩

/-- Modelled from the spec: a cached lookup. An entry is live while
now - fetched_at < ttl; a live entry is returned with no underlying fetch,
otherwise the fetched value is stored with fetched_at = now. The Bool of the
result records whether an underlying fetch happened. -/
def get_or_fetch {κ α : Type} [DecidableEq κ] (ttl : ℤ) (c : QueryCache κ α)
    (k : κ) (now : ℤ) (fetched : α) : α × QueryCache κ α × Bool :=
  match c.entries k with
  | some (v, t) =>
    if now - t < ttl then (v, c, false)
    else (fetched, ⟨fun j => if j = k then some (fetched, now) else c.entries j⟩, true)
  | none => (fetched, ⟨fun j => if j = k then some (fetched, now) else c.entries j⟩, true)

/-- Modelled from the spec: st.cache_data.clear(), run by the Refresh Data
button (src/app.py lines 153-154), drops every entry unconditionally. -/
def QueryCache.clearAll {κ α : Type} (_ : QueryCache κ α) : QueryCache κ α :=
  ⟨fun _ => none⟩

/-- Cache state after one lookup of key k at time t1 starting from the empty
cache (first of the two calls of the claimed scenario). -/
def cache_after_first {κ α : Type} [DecidableEq κ] (ttl : ℤ) (k : κ) (t1 : ℤ)
    (v1 : α) : QueryCache κ α :=
  (get_or_fetch ttl QueryCache.emptyCache k t1 v1).2.1

/-- ttl of the windowed series cache: @st.cache_data(ttl=60) on
load_temperature_data (src/app.py line 196). -/
def WINDOW_TTL : ℤ := 60

/-- ttl of the latest-reading cache: @st.cache_data(ttl=30) on
get_latest_reading (src/app.py line 263). -/
def LATEST_TTL : ℤ := 30

/-! Summary statistics (src/app.py lines 320-357). -/

/-- Mean of the temperature column, df.temperature.mean(). -/
def mean_temp (rows : List Reading) : ℚ :=
  (rows.map Reading.temperature).sum / rows.length

/-- First row attaining the maximum temperature, as selected by
df.temperature.idxmax() (pandas keeps the first index on ties). -/
def idxmax : List Reading → Option Reading
  | [] => none
  | r :: rs =>
    match idxmax rs with
    | none => some r
    | some b => if b.temperature > r.temperature then some b else some r

/-- First row attaining the minimum temperature, as selected by
df.temperature.idxmin() (pandas keeps the first index on ties). -/
def idxmin : List Reading → Option Reading
  | [] => none
  | r :: rs =>
    match idxmin rs with
    | none => some r
    | some b => if b.temperature < r.temperature then some b else some r

/-- Values shown by the statistics columns: average, maximum with its date,
minimum with its date, reading count. A none field renders as a dash. -/
structure StatsView where
  avg : Option ℚ
  maxTemp : Option (ℚ × ℤ)
  minTemp : Option (ℚ × ℤ)
  count : ℕ
deriving DecidableEq

/-- Placeholder panel rendered when df.empty (src/app.py lines 336-338 and
355-357): dashes for every statistic and a zero reading count. -/
def no_data_view : StatsView := ⟨none, none, none, 0⟩

/-- Statistics columns of src/app.py lines 320-357: every metric is guarded by
the df.empty check, so statistics are only computed on a non-empty frame. -/
def render_stats (rows : List Reading) : StatsView :=
  if rows.isEmpty then no_data_view
  else
    ⟨some (mean_temp rows),
     (idxmax rows).map (fun r => (r.temperature, r.timestamp)),
     (idxmin rows).map (fun r => (r.temperature, r.timestamp)),
     rows.length⟩

/-- Sum of squared deviations of a list of values from their mean. -/
def sum_sq_dev (xs : List ℚ) : ℚ :=
  (xs.map (fun x => (x - xs.sum / xs.length) ^ 2)).sum

/-- Square of the value produced by df.temperature.std() (src/app.py line
326): pandas Series.std with its default ddof = 1 divides the sum of squared
deviations by n - 1, and yields NaN (none here) on fewer than two values. -/
def pandas_var (xs : List ℚ) : Option ℚ :=
  if 2 ≤ xs.length then some (sum_sq_dev xs / ((xs.length : ℚ) - 1)) else none

/-- Population variance, divisor n, written from the claim's wording. -/
def population_var (xs : List ℚ) : ℚ := sum_sq_dev xs / (xs.length : ℚ)

/-- Sample variance, divisor n - 1, the pandas default named in the amended
claim. -/
def sample_var (xs : List ℚ) : ℚ := sum_sq_dev xs / ((xs.length : ℚ) - 1)

/-! Export formatting. The CSV and JSON serialization of the download section
(src/app.py lines 506-524) is performed by pandas to_csv(index=False) and
to_json(orient records, date_format iso), which live in the pandas library,
not in this repository; the text formats below are modelled from the spec
(one header row then one comma-separated line per reading for CSV; one record
per reading with null for a missing optional field for JSON; ISO-8601
timestamps), together with parsers that read the text back. -/

def digitChar (d : ℕ) : Char := Char.ofNat (48 + d)

def isDigitCh (c : Char) : Bool := 48 ≤ c.toNat && c.toNat ≤ 57

def natCharsAux : ℕ → ℕ → List Char → List Char
  | 0, _, acc => acc
  | _ + 1, 0, acc => acc
  | fuel + 1, n + 1, acc =>
    natCharsAux fuel ((n + 1) / 10) (digitChar ((n + 1) % 10) :: acc)

def natChars (n : ℕ) : List Char := if n = 0 then ['0'] else natCharsAux n n []

def valD (l : List Char) : ℕ := l.foldl (fun a c => 10 * a + (c.toNat - 48)) 0

def parseNat (l : List Char) : Option ℕ :=
  if l.isEmpty then none
  else if l.all isDigitCh then some (valD l) else none

def joinWith (sep : Char) : List (List Char) → List Char
  | [] => []
  | [p] => p
  | p :: q :: rest => p ++ sep :: joinWith sep (q :: rest)

def splitOnChar (sep : Char) : List Char → List (List Char)
  | [] => [[]]
  | c :: cs =>
    match splitOnChar sep cs with
    | [] => [[]]
    | h :: t => if c = sep then [] :: h :: t else (c :: h) :: t

def padChars (w n : ℕ) : List Char :=
  List.replicate (w - (natChars n).length) '0' ++ natChars n

def intChars (z : ℤ) : List Char :=
  if z < 0 then '-' :: natChars z.natAbs else natChars z.natAbs

def parseInt (l : List Char) : Option ℤ :=
  if l.head? = some '-' then (parseNat l.tail).map (fun n => -(Int.ofNat n))
  else (parseNat l).map (fun n => Int.ofNat n)

def two_parts (sep : Char) (l : List Char) : Option (List Char × List Char) :=
  match splitOnChar sep l with
  | [a, b] => some (a, b)
  | _ => none

def three_parts (sep : Char) (l : List Char) :
    Option (List Char × List Char × List Char) :=
  match splitOnChar sep l with
  | [a, b, c] => some (a, b, c)
  | _ => none

def four_parts (sep : Char) (l : List Char) :
    Option (List Char × List Char × List Char × List Char) :=
  match splitOnChar sep l with
  | [a, b, c, d] => some (a, b, c, d)
  | _ => none

def tempAbsChars (a : ℕ) : List Char :=
  natChars (a / 100) ++ '.' :: padChars 2 (a % 100)

def tempChars (t : ℤ) : List Char :=
  if t < 0 then '-' :: tempAbsChars t.natAbs else tempAbsChars t.natAbs

def parseTempAbs (l : List Char) : Option ℕ :=
  (two_parts '.' l).bind (fun p =>
    (parseNat p.1).bind (fun i => (parseNat p.2).map (fun f => i * 100 + f)))

def parseTemp (l : List Char) : Option ℤ :=
  if l.head? = some '-' then (parseTempAbs l.tail).map (fun n => -(Int.ofNat n))
  else (parseTempAbs l).map (fun n => Int.ofNat n)

structure DateTime where
  year : ℕ
  month : ℕ
  day : ℕ
  hour : ℕ
  minute : ℕ
  second : ℕ
deriving DecidableEq

def dtChars (d : DateTime) : List Char :=
  joinWith 'T'
    [joinWith '-' [padChars 4 d.year, padChars 2 d.month, padChars 2 d.day],
     joinWith ':' [padChars 2 d.hour, padChars 2 d.minute, padChars 2 d.second]]

def parseDT (l : List Char) : Option DateTime :=
  (two_parts 'T' l).bind (fun dt =>
    (three_parts '-' dt.1).bind (fun dp =>
      (three_parts ':' dt.2).bind (fun tp =>
        (parseNat dp.1).bind (fun y =>
          (parseNat dp.2.1).bind (fun mo =>
            (parseNat dp.2.2).bind (fun dd =>
              (parseNat tp.1).bind (fun h =>
                (parseNat tp.2.1).bind (fun mi =>
                  (parseNat tp.2.2).map (fun s =>
                    DateTime.mk y mo dd h mi s)))))))))

inductive SourceTag
  | lora
  | manual
deriving DecidableEq

structure ExportRow where
  timestamp : DateTime
  temperature : ℤ
  rssi : Option ℤ
  source : Option SourceTag
deriving DecidableEq

def sourceChars : Option SourceTag → List Char
  | none => []
  | some SourceTag.lora => ['l', 'o', 'r', 'a']
  | some SourceTag.manual => ['m', 'a', 'n', 'u', 'a', 'l']

def parseSource (l : List Char) : Option (Option SourceTag) :=
  if l = [] then some none
  else if l = ['l', 'o', 'r', 'a'] then some (some SourceTag.lora)
  else if l = ['m', 'a', 'n', 'u', 'a', 'l'] then some (some SourceTag.manual)
  else none

def optIntChars : Option ℤ → List Char
  | none => []
  | some z => intChars z

def parseOptInt (l : List Char) : Option (Option ℤ) :=
  if l = [] then some none else (parseInt l).map some

def rowChars (r : ExportRow) : List Char :=
  joinWith ','
    [dtChars r.timestamp, tempChars r.temperature, optIntChars r.rssi, sourceChars r.source]

def parseRow (l : List Char) : Option ExportRow :=
  (four_parts ',' l).bind (fun cs =>
    (parseDT cs.1).bind (fun d =>
      (parseTemp cs.2.1).bind (fun t =>
        (parseOptInt cs.2.2.1).bind (fun rs =>
          (parseSource cs.2.2.2).map (fun src => ExportRow.mk d t rs src)))))

def headerChars : List Char :=
  ['t', 'i', 'm', 'e', 's', 't', 'a', 'm', 'p', ',', 't', 'e', 'm', 'p', 'e', 'r',
   'a', 't', 'u', 'r', 'e', ',', 'r', 's', 's', 'i', ',', 's', 'o', 'u', 'r', 'c', 'e']

def to_csv (rows : List ExportRow) : String :=
  String.mk (joinWith '\n' (headerChars :: rows.map rowChars))

def optionAll {s b : Type} (f : s → Option b) : List s → Option (List b)
  | [] => some []
  | x :: xs =>
    match f x, optionAll f xs with
    | some y, some ys => some (y :: ys)
    | _, _ => none

def parseCsv (str : String) : Option (List ExportRow) :=
  match splitOnChar '\n' str.data with
  | h :: lines => if h = headerChars then optionAll parseRow lines else none
  | [] => none

inductive JKey
  | timestamp
  | temperature
  | rssi
  | source
deriving DecidableEq

inductive Jval
  | jnum (hundredths : ℤ)
  | jint (z : ℤ)
  | jstr (s : List Char)
  | jnull
deriving DecidableEq

def jsonRow (r : ExportRow) : List (JKey × Jval) :=
  [(JKey.timestamp, Jval.jstr (dtChars r.timestamp)),
   (JKey.temperature, Jval.jnum r.temperature),
   (JKey.rssi, match r.rssi with | none => Jval.jnull | some z => Jval.jint z),
   (JKey.source,
     match r.source with | none => Jval.jnull | some s => Jval.jstr (sourceChars (some s)))]

def to_json (rows : List ExportRow) : List (List (JKey × Jval)) := rows.map jsonRow

def parseJvalRssi : Jval → Option (Option ℤ)
  | Jval.jnull => some none
  | Jval.jint z => some (some z)
  | _ => none

def parseJvalSource : Jval → Option (Option SourceTag)
  | Jval.jnull => some none
  | Jval.jstr s =>
    if s = ['l', 'o', 'r', 'a'] then some (some SourceTag.lora)
    else if s = ['m', 'a', 'n', 'u', 'a', 'l'] then some (some SourceTag.manual)
    else none
  | _ => none

def parseJsonRow : List (JKey × Jval) → Option ExportRow
  | [(JKey.timestamp, Jval.jstr ts), (JKey.temperature, Jval.jnum t),
     (JKey.rssi, rv), (JKey.source, sv)] =>
    (parseDT ts).bind (fun d =>
      (parseJvalRssi rv).bind (fun rs =>
        (parseJvalSource sv).map (fun src => ExportRow.mk d t rs src)))
  | _ => none

def parseJson (recs : List (List (JKey × Jval))) : Option (List ExportRow) :=
  optionAll parseJsonRow recs

/-- Concrete export series of the claimed scenario: two readings, the second
of which misses both optional fields (rssi and source). -/
def sample_rows : List ExportRow :=
  [ExportRow.mk (DateTime.mk 2025 7 1 12 0 0) 1234 (some (-70)) (some SourceTag.lora),
   ExportRow.mk (DateTime.mk 2025 7 1 12 5 0) 1210 none none]

/-! Supporting lemmas for the export round trip. -/

theorem toNat_digitChar (m : ℕ) (h : m < 10) : (digitChar m).toNat = 48 + m := by
  interval_cases m <;> decide

theorem isDigitCh_digitChar (m : ℕ) (h : m < 10) : isDigitCh (digitChar m) = true := by
  interval_cases m <;> decide

theorem natCharsAux_append (fuel n : ℕ) (acc : List Char) :
    natCharsAux fuel n acc = natCharsAux fuel n [] ++ acc := by
  induction fuel generalizing n acc with
  | zero => simp [natCharsAux]
  | succ f ih =>
    cases n with
    | zero => simp [natCharsAux]
    | succ m =>
      rw [natCharsAux, natCharsAux, ih ((m + 1) / 10) (digitChar ((m + 1) % 10) :: acc),
        ih ((m + 1) / 10) [digitChar ((m + 1) % 10)]]
      simp

theorem mem_natCharsAux (fuel n : ℕ) (c : Char) (hc : c ∈ natCharsAux fuel n []) :
    isDigitCh c = true := by
  induction fuel generalizing n with
  | zero => simp [natCharsAux] at hc
  | succ f ih =>
    cases n with
    | zero => simp [natCharsAux] at hc
    | succ m =>
      rw [natCharsAux, natCharsAux_append] at hc
      rcases List.mem_append.mp hc with h1 | h1
      · exact ih _ h1
      · have : c = digitChar ((m + 1) % 10) := by simpa using h1
        subst this
        exact isDigitCh_digitChar _ (Nat.mod_lt _ (by norm_num))

theorem valD_natCharsAux (fuel n : ℕ) (h0 : 0 < n) (hf : n ≤ fuel) :
    valD (natCharsAux fuel n []) = n := by
  induction fuel using Nat.strong_induction_on generalizing n with
  | _ f ih =>
    cases f with
    | zero => omega
    | succ f =>
      cases n with
      | zero => omega
      | succ m =>
        rw [natCharsAux, natCharsAux_append]
        by_cases hq : (m + 1) / 10 = 0
        · rw [hq]
          have hz : natCharsAux f 0 ([] : List Char) = [] := by cases f <;> rfl
          rw [hz, List.nil_append]
          have hm : (m + 1) % 10 = m + 1 := by omega
          rw [hm]
          unfold valD
          rw [List.foldl_cons, List.foldl_nil, toNat_digitChar (m + 1) (by omega)]
          omega
        · have hq1 : 0 < (m + 1) / 10 := Nat.pos_of_ne_zero hq
          have hq2 : (m + 1) / 10 ≤ f := by omega
          have hv := ih f (by omega) ((m + 1) / 10) hq1 hq2
          unfold valD at hv ⊢
          rw [List.foldl_append, hv]
          simp [toNat_digitChar ((m+1) % 10) (by omega)]
          omega

theorem natChars_all_digits (n : ℕ) (c : Char) (hc : c ∈ natChars n) : isDigitCh c = true := by
  unfold natChars at hc
  by_cases h : n = 0
  · rw [if_pos h] at hc
    have : c = '0' := by simpa using hc
    subst this; decide
  · rw [if_neg h] at hc
    exact mem_natCharsAux n n c hc

theorem natChars_ne_nil (n : ℕ) : natChars n ≠ [] := by
  unfold natChars
  by_cases h : n = 0
  · rw [if_pos h]; simp
  · rw [if_neg h]
    intro hnil
    have := valD_natCharsAux n n (Nat.pos_of_ne_zero h) le_rfl
    rw [hnil] at this
    simp [valD] at this
    omega

theorem parseNat_natChars (n : ℕ) : parseNat (natChars n) = some n := by
  unfold parseNat
  rw [if_neg (by simp [natChars_ne_nil n])]
  rw [if_pos (List.all_eq_true.mpr (fun c hc => natChars_all_digits n c hc))]
  congr 1
  unfold natChars
  by_cases h : n = 0
  · rw [if_pos h]; subst h; decide
  · rw [if_neg h]
    exact valD_natCharsAux n n (Nat.pos_of_ne_zero h) le_rfl

theorem splitOnChar_ne_nil (sep : Char) (l : List Char) : splitOnChar sep l ≠ [] := by
  cases l with
  | nil => simp [splitOnChar]
  | cons c cs =>
    rw [splitOnChar]
    cases h : splitOnChar sep cs with
    | nil => simp
    | cons a b =>
      by_cases hc : c = sep <;> simp [hc]

theorem splitOnChar_of_not_mem (sep : Char) (l : List Char) (h : sep ∉ l) :
    splitOnChar sep l = [l] := by
  induction l with
  | nil => rfl
  | cons c cs ih =>
    have hcs : sep ∉ cs := fun hm => h (List.mem_cons_of_mem c hm)
    have hcne : c ≠ sep := fun he => h (he ▸ List.mem_cons_self c cs)
    rw [splitOnChar, ih hcs]
    simp [hcne]

theorem splitOnChar_append (sep : Char) (p r : List Char) (hp : sep ∉ p) :
    splitOnChar sep (p ++ sep :: r) = p :: splitOnChar sep r := by
  induction p with
  | nil =>
    rw [List.nil_append, splitOnChar]
    cases h : splitOnChar sep r with
    | nil => exact absurd h (splitOnChar_ne_nil sep r)
    | cons a b => simp
  | cons c cs ih =>
    have hcs : sep ∉ cs := fun hm => hp (List.mem_cons_of_mem c hm)
    have hcne : c ≠ sep := fun he => hp (he ▸ List.mem_cons_self c cs)
    rw [List.cons_append, splitOnChar, ih hcs]
    simp [hcne]

theorem splitOnChar_joinWith (sep : Char) (parts : List (List Char))
    (hne : parts ≠ []) (hmem : ∀ p ∈ parts, sep ∉ p) :
    splitOnChar sep (joinWith sep parts) = parts := by
  induction parts with
  | nil => exact absurd rfl hne
  | cons p rest ih =>
    cases rest with
    | nil =>
      rw [joinWith]
      exact splitOnChar_of_not_mem sep p (hmem p (List.mem_cons_self p []))
    | cons q rest2 =>
      rw [joinWith, splitOnChar_append sep p _ (hmem p (List.mem_cons_self p _)),
        ih (by simp) (fun x hx => hmem x (List.mem_cons_of_mem p hx))]

theorem mem_joinWith (sep : Char) (c : Char) (parts : List (List Char))
    (hc : c ∈ joinWith sep parts) : c = sep ∨ ∃ p ∈ parts, c ∈ p := by
  induction parts with
  | nil => simp [joinWith] at hc
  | cons p rest ih =>
    cases rest with
    | nil =>
      rw [joinWith] at hc
      exact Or.inr ⟨p, List.mem_cons_self p [], hc⟩
    | cons q rest2 =>
      rw [joinWith] at hc
      rcases List.mem_append.mp hc with h1 | h1
      · exact Or.inr ⟨p, List.mem_cons_self p _, h1⟩
      · rcases List.mem_cons.mp h1 with h2 | h2
        · exact Or.inl h2
        · rcases ih h2 with h3 | ⟨x, hx1, hx2⟩
          · exact Or.inl h3
          · exact Or.inr ⟨x, List.mem_cons_of_mem p hx1, hx2⟩

theorem valD_replicate_zero (k : ℕ) (l : List Char) :
    valD (List.replicate k '0' ++ l) = valD l := by
  induction k with
  | zero => rw [List.replicate_zero, List.nil_append]
  | succ m ih =>
    rw [List.replicate_succ, List.cons_append]
    unfold valD at ih ⊢
    rw [List.foldl_cons]
    simpa using ih

theorem padChars_all_digits (w n : ℕ) (c : Char) (hc : c ∈ padChars w n) :
    isDigitCh c = true := by
  unfold padChars at hc
  rcases List.mem_append.mp hc with h1 | h1
  · have : c = '0' := List.eq_of_mem_replicate h1
    subst this; decide
  · exact natChars_all_digits n c h1

theorem parseNat_padChars (w n : ℕ) : parseNat (padChars w n) = some n := by
  unfold parseNat
  have hne : ¬(padChars w n).isEmpty = true := by
    unfold padChars
    cases h : natChars n with
    | nil => exact absurd h (natChars_ne_nil n)
    | cons a b => simp
  rw [if_neg hne,
    if_pos (List.all_eq_true.mpr (fun c hc => padChars_all_digits w n c hc))]
  unfold padChars
  rw [valD_replicate_zero]
  have := parseNat_natChars n
  unfold parseNat at this
  rw [if_neg (by simp [natChars_ne_nil n]),
    if_pos (List.all_eq_true.mpr (fun c hc => natChars_all_digits n c hc))] at this
  exact this

theorem digit_head_ne_dash (n : ℕ) : (natChars n).head? ≠ some '-' := by
  cases h : natChars n with
  | nil => simp
  | cons a b =>
    have ha : isDigitCh a = true := natChars_all_digits n a (h ▸ List.mem_cons_self a b)
    simp only [List.head?_cons, ne_eq, Option.some.injEq]
    intro he
    subst he
    exact absurd ha (by decide)

theorem parseInt_intChars (z : ℤ) : parseInt (intChars z) = some z := by
  unfold parseInt intChars
  by_cases hz : z < 0
  · rw [if_pos hz]
    simp only [List.head?_cons, if_pos rfl, List.tail_cons, parseNat_natChars]
    exact congrArg some (show -((z.natAbs : ℤ)) = z by omega)
  · rw [if_neg hz, if_neg (digit_head_ne_dash z.natAbs), parseNat_natChars]
    exact congrArg some (show ((z.natAbs : ℤ)) = z by omega)

theorem obind_some {a b : Type} (x : a) (f : a → Option b) : (some x).bind f = f x := rfl

theorem omap_some {a b : Type} (x : a) (f : a → b) : (some x).map f = some (f x) := rfl

theorem not_mem_natChars (n : ℕ) (c : Char) (hc : ¬ isDigitCh c = true) :
    c ∉ natChars n :=
  fun hm => hc (natChars_all_digits n c hm)

theorem not_mem_padChars (w n : ℕ) (c : Char) (hc : ¬ isDigitCh c = true) :
    c ∉ padChars w n :=
  fun hm => hc (padChars_all_digits w n c hm)

theorem head_ne_dash_of_digits (l r : List Char) (hl : l ≠ [])
    (hd : ∀ c ∈ l, isDigitCh c = true) : (l ++ r).head? ≠ some '-' := by
  cases l with
  | nil => exact absurd rfl hl
  | cons a b =>
    simp only [List.cons_append, List.head?_cons, ne_eq, Option.some.injEq]
    intro he
    subst he
    exact absurd (hd '-' (List.mem_cons_self _ _)) (by decide)

theorem two_parts_join (sep : Char) (a b : List Char) (ha : sep ∉ a) (hb : sep ∉ b) :
    two_parts sep (joinWith sep [a, b]) = some (a, b) := by
  unfold two_parts
  rw [splitOnChar_joinWith sep [a, b] (by simp) ?hm]
  case hm =>
    intro p hp
    rcases List.mem_cons.mp hp with h1 | hp2
    · subst h1; exact ha
    · have h2 : p = b := by simpa using hp2
      subst h2; exact hb

theorem three_parts_join (sep : Char) (a b c : List Char)
    (ha : sep ∉ a) (hb : sep ∉ b) (hc : sep ∉ c) :
    three_parts sep (joinWith sep [a, b, c]) = some (a, b, c) := by
  unfold three_parts
  rw [splitOnChar_joinWith sep [a, b, c] (by simp) ?hm]
  case hm =>
    intro p hp
    rcases List.mem_cons.mp hp with h1 | hp2
    · subst h1; exact ha
    rcases List.mem_cons.mp hp2 with h1 | hp3
    · subst h1; exact hb
    · have h2 : p = c := by simpa using hp3
      subst h2; exact hc

theorem four_parts_join (sep : Char) (a b c d : List Char)
    (ha : sep ∉ a) (hb : sep ∉ b) (hc : sep ∉ c) (hd : sep ∉ d) :
    four_parts sep (joinWith sep [a, b, c, d]) = some (a, b, c, d) := by
  unfold four_parts
  rw [splitOnChar_joinWith sep [a, b, c, d] (by simp) ?hm]
  case hm =>
    intro p hp
    rcases List.mem_cons.mp hp with h1 | hp2
    · subst h1; exact ha
    rcases List.mem_cons.mp hp2 with h1 | hp3
    · subst h1; exact hb
    rcases List.mem_cons.mp hp3 with h1 | hp4
    · subst h1; exact hc
    · have h2 : p = d := by simpa using hp4
      subst h2; exact hd

theorem tempAbsChars_join (a : ℕ) :
    tempAbsChars a = joinWith '.' [natChars (a / 100), padChars 2 (a % 100)] := rfl

theorem parseTempAbs_round (a : ℕ) : parseTempAbs (tempAbsChars a) = some a := by
  unfold parseTempAbs
  rw [tempAbsChars_join,
    two_parts_join '.' _ _ (not_mem_natChars _ '.' (by decide))
      (not_mem_padChars _ _ '.' (by decide))]
  simp only [obind_some, parseNat_natChars, parseNat_padChars, omap_some]
  congr 1
  omega

theorem tempAbsChars_head_ne (a : ℕ) : (tempAbsChars a).head? ≠ some '-' :=
  head_ne_dash_of_digits _ _ (natChars_ne_nil _)
    (fun c hc => natChars_all_digits _ c hc)

theorem parseTemp_tempChars (t : ℤ) : parseTemp (tempChars t) = some t := by
  unfold parseTemp tempChars
  by_cases ht : t < 0
  · rw [if_pos ht]
    simp only [List.head?_cons, List.tail_cons]
    rw [if_pos trivial, parseTempAbs_round]
    exact congrArg some (show -((t.natAbs : ℤ)) = t by omega)
  · rw [if_neg ht, if_neg (tempAbsChars_head_ne t.natAbs), parseTempAbs_round]
    exact congrArg some (show ((t.natAbs : ℤ)) = t by omega)

theorem not_mem_joinWith (sep c : Char) (parts : List (List Char))
    (hcs : c ≠ sep) (h : ∀ p ∈ parts, c ∉ p) : c ∉ joinWith sep parts := by
  intro hc
  rcases mem_joinWith sep c parts hc with h1 | ⟨p, hp1, hp2⟩
  · exact hcs h1
  · exact h p hp1 hp2

theorem pads3_not_mem (c : Char) (hc : ¬ isDigitCh c = true) (w1 n1 w2 n2 w3 n3 : ℕ) :
    ∀ p ∈ [padChars w1 n1, padChars w2 n2, padChars w3 n3], c ∉ p := by
  intro p hp
  rcases List.mem_cons.mp hp with h1 | hp2
  · subst h1; exact not_mem_padChars _ _ c hc
  rcases List.mem_cons.mp hp2 with h1 | hp3
  · subst h1; exact not_mem_padChars _ _ c hc
  have h4 : p = padChars w3 n3 := by simpa using hp3
  subst h4; exact not_mem_padChars _ _ c hc

theorem parseDT_dtChars (d : DateTime) : parseDT (dtChars d) = some d := by
  have hdate : 'T' ∉ joinWith '-' [padChars 4 d.year, padChars 2 d.month, padChars 2 d.day] :=
    not_mem_joinWith '-' 'T' _ (by decide) (pads3_not_mem 'T' (by decide) _ _ _ _ _ _)
  have htime : 'T' ∉ joinWith ':' [padChars 2 d.hour, padChars 2 d.minute, padChars 2 d.second] :=
    not_mem_joinWith ':' 'T' _ (by decide) (pads3_not_mem 'T' (by decide) _ _ _ _ _ _)
  unfold parseDT dtChars
  rw [two_parts_join 'T' _ _ hdate htime]
  simp only [obind_some]
  rw [three_parts_join '-' _ _ _ (not_mem_padChars _ _ _ (by decide))
      (not_mem_padChars _ _ _ (by decide)) (not_mem_padChars _ _ _ (by decide)),
    three_parts_join ':' _ _ _ (not_mem_padChars _ _ _ (by decide))
      (not_mem_padChars _ _ _ (by decide)) (not_mem_padChars _ _ _ (by decide))]
  simp only [obind_some, parseNat_padChars, omap_some]

theorem parseSource_sourceChars (s : Option SourceTag) :
    parseSource (sourceChars s) = some s := by
  rcases s with _ | s
  · rfl
  · cases s <;> rfl

theorem intChars_ne_nil (z : ℤ) : intChars z ≠ [] := by
  unfold intChars
  by_cases hz : z < 0
  · rw [if_pos hz]; simp
  · rw [if_neg hz]; exact natChars_ne_nil _

theorem parseOptInt_optIntChars (z : Option ℤ) : parseOptInt (optIntChars z) = some z := by
  rcases z with _ | z
  · rfl
  · show parseOptInt (intChars z) = some (some z)
    unfold parseOptInt
    rw [if_neg (intChars_ne_nil z), parseInt_intChars, omap_some]

theorem not_mem_dtChars (c : Char) (hc : isDigitCh c = false) (h1 : c ≠ 'T')
    (h2 : c ≠ '-') (h3 : c ≠ ':') (d : DateTime) : c ∉ dtChars d := by
  unfold dtChars
  refine not_mem_joinWith 'T' c _ h1 ?_
  intro p hp
  rcases List.mem_cons.mp hp with e | hp2
  · subst e
    exact not_mem_joinWith '-' c _ h2 (pads3_not_mem c (by simp [hc]) _ _ _ _ _ _)
  · have e : p = joinWith ':' [padChars 2 d.hour, padChars 2 d.minute, padChars 2 d.second] := by
      simpa using hp2
    subst e
    exact not_mem_joinWith ':' c _ h3 (pads3_not_mem c (by simp [hc]) _ _ _ _ _ _)

theorem not_mem_tempAbsChars (c : Char) (hc : isDigitCh c = false) (h2 : c ≠ '.')
    (a : ℕ) : c ∉ tempAbsChars a := by
  unfold tempAbsChars
  intro hm
  rcases List.mem_append.mp hm with hm1 | hm1
  · exact not_mem_natChars _ c (by simp [hc]) hm1
  · rcases List.mem_cons.mp hm1 with e | hm2
    · exact h2 e
    · exact not_mem_padChars _ _ c (by simp [hc]) hm2

theorem not_mem_tempChars (c : Char) (hc : isDigitCh c = false) (h1 : c ≠ '-')
    (h2 : c ≠ '.') (t : ℤ) : c ∉ tempChars t := by
  unfold tempChars
  by_cases ht : t < 0
  · rw [if_pos ht]
    intro hm
    rcases List.mem_cons.mp hm with e | hm2
    · exact h1 e
    · exact not_mem_tempAbsChars c hc h2 _ hm2
  · rw [if_neg ht]
    exact not_mem_tempAbsChars c hc h2 _

theorem not_mem_intChars (c : Char) (hc : isDigitCh c = false) (h1 : c ≠ '-')
    (z : ℤ) : c ∉ intChars z := by
  unfold intChars
  by_cases hz : z < 0
  · rw [if_pos hz]
    intro hm
    rcases List.mem_cons.mp hm with e | hm2
    · exact h1 e
    · exact not_mem_natChars _ c (by simp [hc]) hm2
  · rw [if_neg hz]
    exact not_mem_natChars _ c (by simp [hc])

theorem not_mem_optIntChars (c : Char) (hc : isDigitCh c = false) (h1 : c ≠ '-')
    (z : Option ℤ) : c ∉ optIntChars z := by
  rcases z with _ | z
  · exact List.not_mem_nil c
  · exact not_mem_intChars c hc h1 z

theorem not_mem_sourceChars (c : Char) (h1 : c ∉ (['l', 'o', 'r', 'a'] : List Char))
    (h2 : c ∉ (['m', 'a', 'n', 'u', 'a', 'l'] : List Char)) (s : Option SourceTag) :
    c ∉ sourceChars s := by
  rcases s with _ | s
  · exact List.not_mem_nil c
  · cases s
    · exact h1
    · exact h2

theorem parseRow_rowChars (r : ExportRow) : parseRow (rowChars r) = some r := by
  unfold parseRow rowChars
  rw [four_parts_join ',' _ _ _ _
    (not_mem_dtChars ',' (by decide) (by decide) (by decide) (by decide) _)
    (not_mem_tempChars ',' (by decide) (by decide) (by decide) _)
    (not_mem_optIntChars ',' (by decide) (by decide) _)
    (not_mem_sourceChars ',' (by decide) (by decide) _)]
  simp only [obind_some, parseDT_dtChars, parseTemp_tempChars,
    parseOptInt_optIntChars, parseSource_sourceChars, omap_some]

theorem newline_not_mem_rowChars (r : ExportRow) : '\n' ∉ rowChars r := by
  unfold rowChars
  refine not_mem_joinWith ',' '\n' _ (by decide) ?_
  intro p hp
  rcases List.mem_cons.mp hp with e | hp2
  · subst e
    exact not_mem_dtChars '\n' (by decide) (by decide) (by decide) (by decide) _
  rcases List.mem_cons.mp hp2 with e | hp3
  · subst e
    exact not_mem_tempChars '\n' (by decide) (by decide) (by decide) _
  rcases List.mem_cons.mp hp3 with e | hp4
  · subst e
    exact not_mem_optIntChars '\n' (by decide) (by decide) _
  · have e : p = sourceChars r.source := by simpa using hp4
    subst e
    exact not_mem_sourceChars '\n' (by decide) (by decide) _

theorem optionAll_map {s b : Type} (f : s → Option b) (g : b → s) (l : List b)
    (h : ∀ x, f (g x) = some x) : optionAll f (l.map g) = some l := by
  induction l with
  | nil => rfl
  | cons x xs ih =>
    rw [List.map_cons]
    unfold optionAll
    rw [h x, ih]

theorem parseCsv_to_csv (rows : List ExportRow) : parseCsv (to_csv rows) = some rows := by
  unfold parseCsv to_csv
  have hsp : splitOnChar '\n' (String.mk (joinWith '\n' (headerChars :: rows.map rowChars))).data
      = headerChars :: rows.map rowChars := by
    show splitOnChar '\n' (joinWith '\n' (headerChars :: rows.map rowChars))
        = headerChars :: rows.map rowChars
    refine splitOnChar_joinWith '\n' _ (by simp) ?_
    intro p hp
    rcases List.mem_cons.mp hp with e | hp2
    · subst e; decide
    · rcases List.mem_map.mp hp2 with ⟨r, hr, e⟩
      rw [← e]
      exact newline_not_mem_rowChars r
  rw [hsp]
  show (if headerChars = headerChars then optionAll parseRow (rows.map rowChars) else none)
      = some rows
  rw [if_pos rfl]
  exact optionAll_map parseRow rowChars rows parseRow_rowChars

theorem parseJsonRow_jsonRow (r : ExportRow) : parseJsonRow (jsonRow r) = some r := by
  rcases r with ⟨d, t, rs, src⟩
  rcases rs with _ | z <;> rcases src with _ | s
  · simp only [jsonRow, parseJsonRow]
    rw [parseDT_dtChars]
    rfl
  · cases s <;>
      (simp only [jsonRow, parseJsonRow]
       rw [parseDT_dtChars]
       rfl)
  · simp only [jsonRow, parseJsonRow]
    rw [parseDT_dtChars]
    rfl
  · cases s <;>
      (simp only [jsonRow, parseJsonRow]
       rw [parseDT_dtChars]
       rfl)

theorem parseJson_to_json (rows : List ExportRow) : parseJson (to_json rows) = some rows :=
  optionAll_map parseJsonRow jsonRow rows parseJsonRow_jsonRow

/-! Claim C1: bucket choice. -/

/-- Claim C1 counterexample: the claim says an unbounded span always yields the
daily bucket, but the code maps the unbounded request to the whole hours
elapsed since DATA_CUTOFF_DATE and then buckets those; at a query time 100
hours after the cutoff the unbounded request gets the 15-minute bucket. -/
theorem claim1_counterexample :
    aggregate_bucket (actual_hours none (DATA_CUTOFF + 360000)) ≠ Bucket.daily := by
  decide

/-- Claim C1 (amended): spans of at most 168 hours always get the 15-minute
bucket, spans in (168, 720] the hourly bucket, spans above 720 the daily
bucket; a bounded span's bucket depends on the span alone (deterministic); the
unbounded request maps to the whole hours elapsed since the cutoff and gets
the daily bucket whenever at least 721 whole hours (2595600 seconds) have
elapsed since DATA_CUTOFF_DATE. -/
theorem claim1_theorem (h now : ℤ) :
    (h ≤ 168 → aggregate_bucket h = Bucket.fifteenMin) ∧
    (168 < h → h ≤ 720 → aggregate_bucket h = Bucket.hourly) ∧
    (720 < h → aggregate_bucket h = Bucket.daily) ∧
    aggregate_bucket (actual_hours (some h) now) = aggregate_bucket h ∧
    (DATA_CUTOFF + 2595600 ≤ now →
      aggregate_bucket (actual_hours none now) = Bucket.daily) := by
  refine ⟨fun h1 => ?_, fun h1 h2 => ?_, fun h1 => ?_, rfl, fun h1 => ?_⟩
  · unfold aggregate_bucket
    rw [if_pos h1]
  · unfold aggregate_bucket
    rw [if_neg (by omega), if_pos h2]
  · unfold aggregate_bucket
    rw [if_neg (by omega), if_neg (by omega)]
  · have h0 : (0 : ℤ) ≤ now - DATA_CUTOFF := by unfold DATA_CUTOFF at h1 ⊢; omega
    show aggregate_bucket (Int.tdiv (now - DATA_CUTOFF) 3600) = Bucket.daily
    rw [Int.tdiv_eq_ediv h0 (by norm_num)]
    unfold DATA_CUTOFF at h1 ⊢
    unfold aggregate_bucket
    rw [if_neg (by omega), if_neg (by omega)]

/-- Claim C1 witness: concrete spans in each band, and an unbounded request
721 hours after the cutoff. -/
theorem claim1_witness :
    aggregate_bucket 100 = Bucket.fifteenMin ∧
    aggregate_bucket 400 = Bucket.hourly ∧
    aggregate_bucket 8760 = Bucket.daily ∧
    aggregate_bucket (actual_hours none (DATA_CUTOFF + 2595600)) = Bucket.daily :=
  ⟨(claim1_theorem 100 0).1 (by norm_num),
   (claim1_theorem 400 0).2.1 (by norm_num) (by norm_num),
   (claim1_theorem 8760 0).2.2.1 (by norm_num),
   (claim1_theorem 0 (DATA_CUTOFF + 2595600)).2.2.2.2 (le_refl _)⟩

/-! Claim C2: liveness bands. -/

/-- Claim C2: with a latest reading of age now - ts seconds, the banner is
LIVE strictly below 300 seconds (5 minutes), RECENT from 300 up to but not
including 1800 seconds (so exactly 5 minutes is RECENT), OFFLINE from 1800
seconds on (so exactly 30 minutes is OFFLINE); with no latest reading it is
NO DATA. -/
theorem claim2_theorem (ts now : ℚ) :
    (now - ts < 300 → classify (some ts) now = LiveStatus.LIVE) ∧
    (300 ≤ now - ts → now - ts < 1800 → classify (some ts) now = LiveStatus.RECENT) ∧
    (1800 ≤ now - ts → classify (some ts) now = LiveStatus.OFFLINE) ∧
    classify none now = LiveStatus.NO_DATA := by
  refine ⟨fun h1 => ?_, fun h1 h2 => ?_, fun h1 => ?_, rfl⟩
  · simp only [classify]
    rw [if_pos h1]
  · simp only [classify]
    rw [if_neg (not_lt.mpr h1), if_pos h2]
  · simp only [classify]
    rw [if_neg (not_lt.mpr (by linarith)), if_neg (not_lt.mpr h1)]

/-- Claim C2 witness: ages of 299, exactly 300, and exactly 1800 seconds, and
the absent case. -/
theorem claim2_witness :
    classify (some 0) 299 = LiveStatus.LIVE ∧
    classify (some 0) 300 = LiveStatus.RECENT ∧
    classify (some 0) 1800 = LiveStatus.OFFLINE ∧
    classify none 0 = LiveStatus.NO_DATA :=
  ⟨(claim2_theorem 0 299).1 (by norm_num),
   (claim2_theorem 0 300).2.1 (by norm_num) (by norm_num),
   (claim2_theorem 0 1800).2.2.1 (by norm_num),
   (claim2_theorem 0 0).2.2.2⟩

/-! Claim C3: cache time-to-live and refresh. -/

/-- Claim C3: the windowed series cache carries a 60-second ttl and the
latest-reading cache a 30-second ttl; starting from an empty cache, the first
lookup of a key fetches, a second lookup of the same key strictly within the
ttl does not fetch and returns the first value (so the pair of calls performs
exactly one underlying fetch), a second lookup at or past the ttl fetches
anew, and after the unconditional clear of the refresh action the next lookup
of every key fetches even within the ttl. -/
theorem claim3_theorem {κ α : Type} [DecidableEq κ] (k j : κ) (t1 t2 : ℤ)
    (v1 v2 : α) :
    WINDOW_TTL = 60 ∧ LATEST_TTL = 30 ∧
    (get_or_fetch WINDOW_TTL QueryCache.emptyCache k t1 v1).2.2 = true ∧
    (t2 - t1 < WINDOW_TTL →
      (get_or_fetch WINDOW_TTL (cache_after_first WINDOW_TTL k t1 v1) k t2 v2).2.2 = false ∧
      (get_or_fetch WINDOW_TTL (cache_after_first WINDOW_TTL k t1 v1) k t2 v2).1 = v1) ∧
    (WINDOW_TTL ≤ t2 - t1 →
      (get_or_fetch WINDOW_TTL (cache_after_first WINDOW_TTL k t1 v1) k t2 v2).2.2 = true) ∧
    (get_or_fetch WINDOW_TTL ((cache_after_first WINDOW_TTL k t1 v1).clearAll) j t2 v2).2.2 = true := by
  have hent : (cache_after_first WINDOW_TTL k t1 v1).entries k = some (v1, t1) := by
    simp [cache_after_first, get_or_fetch, QueryCache.emptyCache]
  refine ⟨rfl, rfl, rfl, fun hlt => ⟨?_, ?_⟩, fun hge => ?_, rfl⟩
  · simp [get_or_fetch, hent, hlt]
  · simp [get_or_fetch, hent, hlt]
  · simp [get_or_fetch, hent, not_lt.mpr hge]

/-- Claim C3 witness: key 0 fetched at time 0, looked up again at time 30
(one fetch in total), at time 60 (a new fetch), and at time 10 after a clear
(a new fetch even within the ttl), plus the other key 1 after the clear. -/
theorem claim3_witness :
    WINDOW_TTL = 60 ∧ LATEST_TTL = 30 ∧
    (get_or_fetch WINDOW_TTL (QueryCache.emptyCache : QueryCache ℕ ℕ) 0 0 5).2.2 = true ∧
    ((get_or_fetch WINDOW_TTL (cache_after_first WINDOW_TTL (0 : ℕ) 0 (5 : ℕ)) 0 30 7).2.2 = false ∧
     (get_or_fetch WINDOW_TTL (cache_after_first WINDOW_TTL (0 : ℕ) 0 (5 : ℕ)) 0 30 7).1 = 5) ∧
    (get_or_fetch WINDOW_TTL (cache_after_first WINDOW_TTL (0 : ℕ) 0 (5 : ℕ)) 0 60 7).2.2 = true ∧
    (get_or_fetch WINDOW_TTL ((cache_after_first WINDOW_TTL (0 : ℕ) 0 (5 : ℕ)).clearAll) 1 10 7).2.2 = true :=
  ⟨(claim3_theorem (0 : ℕ) 1 0 30 (5 : ℕ) 7).1,
   (claim3_theorem (0 : ℕ) 1 0 30 (5 : ℕ) 7).2.1,
   (claim3_theorem (0 : ℕ) 1 0 30 (5 : ℕ) 7).2.2.1,
   (claim3_theorem (0 : ℕ) 1 0 30 (5 : ℕ) 7).2.2.2.1 (by decide),
   (claim3_theorem (0 : ℕ) 1 0 60 (5 : ℕ) 7).2.2.2.2.1 (by decide),
   (claim3_theorem (0 : ℕ) 1 0 10 (5 : ℕ) 7).2.2.2.2.2⟩

/-! Claim C4: which standard deviation the summary reports. -/

/-- Claim C4 counterexample: on the series 10, 12, 14 the code's reported
variance (pandas default) is 4, while the population variance (divisor n)
is 8/3 — the reported standard deviation is not the population one. -/
theorem claim4_counterexample :
    pandas_var [10, 12, 14] ≠ some (population_var [10, 12, 14]) := by
  norm_num [pandas_var, population_var, sum_sq_dev]

/-- Claim C4 (amended): on every series of at least two values the reported
statistic is the sample standard deviation (sum of squared deviations divided
by n - 1), which is the default of pandas Series.std that the code calls; it
differs from the population standard deviation (divisor n) whenever the
series is not constant. -/
theorem claim4_theorem (xs : List ℚ) (h : 2 ≤ xs.length) :
    pandas_var xs = some (sample_var xs) ∧
    (sum_sq_dev xs ≠ 0 → pandas_var xs ≠ some (population_var xs)) := by
  constructor
  · unfold pandas_var sample_var
    rw [if_pos h]
  · intro hs hcontra
    unfold pandas_var population_var at hcontra
    rw [if_pos h] at hcontra
    have heq := Option.some.inj hcontra
    have hn : (2 : ℚ) ≤ (xs.length : ℚ) := by exact_mod_cast h
    have h1 : ((xs.length : ℚ) - 1) ≠ 0 := by linarith
    have h2 : ((xs.length : ℚ)) ≠ 0 := by linarith
    rw [div_eq_div_iff h1 h2] at heq
    apply hs
    calc sum_sq_dev xs
        = sum_sq_dev xs * ((xs.length : ℚ)) - sum_sq_dev xs * ((xs.length : ℚ) - 1) := by
          ring
      _ = 0 := by rw [heq]; ring

/-- Claim C4 witness: the series 10, 12, 14 has reported (sample) variance 4
and population variance 8/3. -/
theorem claim4_witness :
    pandas_var [10, 12, 14] = some (sample_var [10, 12, 14]) ∧
    pandas_var [10, 12, 14] ≠ some (population_var [10, 12, 14]) :=
  ⟨(claim4_theorem [10, 12, 14] (by norm_num)).1,
   (claim4_theorem [10, 12, 14] (by norm_num)).2 (by norm_num [sum_sq_dev])⟩

/-! Claim C5: empty series. -/

/-- Claim C5: the statistics columns on an empty frame render the placeholder
panel (dashes and a zero count); no mean, deviation, minimum or maximum is
computed, since every metric sits behind the df.empty guard. -/
theorem claim5_theorem : render_stats [] = no_data_view := rfl

/-! Claim C6: truncation flag of the fallback query. -/

/-- Claim C6: the fallback direct query flags possible truncation exactly at
the 1000-row cap: a result of exactly 1000 rows raises the warning, a result
of 999 rows does not. -/
theorem claim6_theorem (rows : List Reading) :
    (rows.length = 1000 → (fallback_result rows).2 = true) ∧
    (rows.length = 999 → (fallback_result rows).2 = false) := by
  constructor <;> intro h <;> simp [fallback_result, h]

/-- Claim C6 witness: 1000 identical rows trigger the warning, 999 do not. -/
theorem claim6_witness :
    (fallback_result (List.replicate 1000 ⟨0, 10, none⟩)).2 = true ∧
    (fallback_result (List.replicate 999 ⟨0, 10, none⟩)).2 = false :=
  ⟨(claim6_theorem _).1 (List.length_replicate 1000 _),
   (claim6_theorem _).2 (List.length_replicate 999 _)⟩

/-! Claim C7: ascending order of every loaded series. -/

/-- Claim C7: both load paths return the source rows re-sorted ascending by
timestamp (and exactly the same multiset of rows), whatever order the source
produced them in, descending included; downstream consumers only ever see the
sorted result. -/
theorem claim7_theorem (rows : List Reading) :
    List.Sorted tsLE (rpc_result rows) ∧
    (rpc_result rows).Perm rows ∧
    List.Sorted tsLE (fallback_result rows).1 ∧
    ((fallback_result rows).1).Perm rows :=
  ⟨List.sorted_insertionSort tsLE rows, List.perm_insertionSort tsLE rows,
   List.sorted_insertionSort tsLE rows, List.perm_insertionSort tsLE rows⟩

/-! Claim C8: effective lower bound of every query. -/

/-- Claim C8: the effective query lower bound of a bounded request of h hours
is the later of now - h hours and the project cutoff, the unbounded request
starts exactly at the cutoff, the bound never precedes the cutoff, and every
row a range query returns (for either request kind) has a timestamp at or
after the cutoff. -/
theorem claim8_theorem (h now : ℤ) (table : List Reading) :
    start_time (some h) now = max (now - h * 3600) DATA_CUTOFF ∧
    start_time none now = DATA_CUTOFF ∧
    DATA_CUTOFF ≤ start_time (some h) now ∧
    (∀ r ∈ fetch_range table (start_time (some h) now), DATA_CUTOFF ≤ r.timestamp) ∧
    (∀ r ∈ fetch_range table (start_time none now), DATA_CUTOFF ≤ r.timestamp) := by
  refine ⟨rfl, rfl, le_max_right _ _, fun r hr => ?_, fun r hr => ?_⟩
  · have hm := List.of_mem_filter hr
    have hs : start_time (some h) now ≤ r.timestamp := by
      simpa using hm
    exact le_trans (le_max_right _ _) hs
  · have hm := List.of_mem_filter hr
    simpa [start_time] using hm

/-- Claim C8 witness: a one-hour request issued two hours after the cutoff,
over a table holding a single row five seconds after the cutoff. -/
theorem claim8_witness :
    start_time (some 1) (DATA_CUTOFF + 7200) =
      max (DATA_CUTOFF + 7200 - 1 * 3600) DATA_CUTOFF ∧
    DATA_CUTOFF ≤ Reading.timestamp ⟨DATA_CUTOFF + 5, 10, none⟩ :=
  ⟨(claim8_theorem 1 (DATA_CUTOFF + 7200) [⟨DATA_CUTOFF + 5, 10, none⟩]).1,
   (claim8_theorem 1 (DATA_CUTOFF + 7200) [⟨DATA_CUTOFF + 5, 10, none⟩]).2.2.2.2
     ⟨DATA_CUTOFF + 5, 10, none⟩ (by decide)⟩

/-! Claim C10: the status bar's own 10-minute cutoff. -/

/-- Claim C10: the status bar shows Buoy Online exactly when a latest reading
exists and is strictly less than 600 seconds (10 minutes) old, and Buoy
Offline otherwise; this threshold is distinct from the 300/1800-second banner
bands, so a latest reading at least 10 but less than 30 minutes old makes the
banner show RECENT while the status bar simultaneously shows Buoy Offline. -/
theorem claim10_theorem (ts now : ℚ) :
    (buoy_online (some ts) now = true ↔ now - ts < 600) ∧
    buoy_online none now = false ∧
    (600 ≤ now - ts → now - ts < 1800 →
      buoy_online (some ts) now = false ∧ classify (some ts) now = LiveStatus.RECENT) := by
  refine ⟨?_, rfl, fun h1 h2 => ⟨?_, ?_⟩⟩
  · simp only [buoy_online, decide_eq_true_eq]
    constructor
    · intro hlt; linarith
    · intro hlt; linarith
  · simp only [buoy_online, decide_eq_false_iff_not]
    intro hlt; linarith
  · simp only [classify]
    rw [if_neg (not_lt.mpr (by linarith)), if_pos h2]

/-- Claim C10 witness: a reading 599 seconds old is Online; one 700 seconds
old is Offline yet RECENT; with no reading the bar is Offline. -/
theorem claim10_witness :
    buoy_online (some 0) 599 = true ∧
    buoy_online none 0 = false ∧
    (buoy_online (some 0) 700 = false ∧ classify (some 0) 700 = LiveStatus.RECENT) :=
  ⟨(claim10_theorem 0 599).1.mpr (by norm_num),
   (claim10_theorem 0 0).2.1,
   (claim10_theorem 0 700).2.2 (by norm_num) (by norm_num)⟩

/-! Claim C9: export round trip. -/

/-- Claim C9: serializing any series to CSV text or to JSON records and
re-parsing the output returns exactly the same readings in the same order —
in particular the same (timestamp, temperature) pairs — including for the
concrete series whose second reading misses its optional rssi and source
fields; timestamps are rendered in the ISO-8601 form YYYY-MM-DDTHH:MM:SS. -/
theorem claim9_theorem (rows : List ExportRow) :
    parseCsv (to_csv rows) = some rows ∧
    parseJson (to_json rows) = some rows ∧
    parseCsv (to_csv sample_rows) = some sample_rows ∧
    parseJson (to_json sample_rows) = some sample_rows :=
  ⟨parseCsv_to_csv rows, parseJson_to_json rows,
   parseCsv_to_csv sample_rows, parseJson_to_json sample_rows⟩

end Stromness
